import Mathlib

/-!
Shallow embedding of the decision core of the day-trading application:
the signal fusion engine (`app/signals/fusion.py`), the market-regime
detector (`app/analysis/market_regime.py`), and the self-learning weight
updater (`app/learning/self_learning.py`).

Python floats are modelled as rationals (every arithmetic operation the
embedded code performs — sums, products by 0.5/0.9/1.1, divisions,
comparisons, `min`, truncating division — is exact on the inputs the
claims concern).  External data fetched over the network (fundamentals,
technical label, market regime, top-down alignment, ATR) is passed in as
an explicit environment, mirroring the values the fetch helpers return.
Python's `int(x)` on a non-negative quotient is `Int.floor`.
-/

namespace DayTrading

/-- Technical label returned by `get_technical_signal` (RSI-based):
`"buy"`, `"sell"` or `"neutral"`. -/
inductive Tech
  | buy
  | sell
  | neutral
deriving DecidableEq, Repr

/-- Market regime label: `"bull"`, `"bear"` or `"neutral"`. -/
inductive Regime
  | bull
  | bear
  | neutral
deriving DecidableEq, Repr

/-- The fields of the FMP fundamentals profile that `generate_fused_signal`
reads, with the `dict.get` defaults already applied
(`priceToEarningsRatio` defaults to 999, `price` to 0). -/
structure Fundamentals where
  peg : ℚ
  price : ℚ
deriving DecidableEq, Repr

/-- The four signal weights (`signal_weights.json`). -/
structure Weights where
  political : ℚ
  sentiment : ℚ
  fundamentals : ℚ
  technical : ℚ
deriving DecidableEq, Repr

/-- `DEFAULT_WEIGHTS`: all four weights 1.0. -/
def DEFAULT_WEIGHTS : Weights := ⟨1, 1, 1, 1⟩

/-- The hard-coded sentiment score in `generate_fused_signal`
(`sentiment_score = 0.7`). -/
def sentiment_score : ℚ := 7/10

/-- External data consumed by one `generate_fused_signal` evaluation:
the fundamentals profile (`get_fundamentals`), the technical label
(`get_technical_signal`), the market regime (`get_market_regime`), the
top-down alignment verdict (`is_top_down_aligned`) and the ATR
(`get_atr`). -/
structure FusionEnv where
  fundamentals : Option Fundamentals
  tech : Tech
  regime : Regime
  aligned : Bool
  atr : ℚ
deriving DecidableEq, Repr

/-- Entries of the `reasons` list built by `generate_fused_signal`:
`"Rep bought"`, `"Sentiment: {score}"`, `"PEG: {peg}"`, `"RSI < 30"`. -/
inductive Reason
  | repBought
  | sentimentPos (score : ℚ)
  | pegGood (peg : ℚ)
  | rsiBuy
deriving DecidableEq, Repr

/-- Whether the fundamentals signal contributes: fundamentals present and
`peg_ratio < 1.0` (absent fundamentals leave `peg_ratio = 999`, which
never passes). -/
def fund_contrib (env : FusionEnv) : Bool :=
  match env.fundamentals with
  | some f => decide (f.peg < 1)
  | none => false

/-- The `total_score` accumulated by `generate_fused_signal` before the
regime damping: each contributing signal adds `1.0 * weights[name]`. -/
def preScore (w : Weights) (political_buy : Bool) (env : FusionEnv) : ℚ :=
  (if political_buy then 1 * w.political else 0)
  + (if sentiment_score > 1/2 then 1 * w.sentiment else 0)
  + (if fund_contrib env then 1 * w.fundamentals else 0)
  + (if env.tech = Tech.buy then 1 * w.technical else 0)

/-- The `total_score` after the regime step: multiplied by 0.5 when the
regime is bear, unchanged otherwise. -/
def total_score (w : Weights) (political_buy : Bool) (env : FusionEnv) : ℚ :=
  if env.regime = Regime.bear then preScore w political_buy env * (1/2)
  else preScore w political_buy env

/-- The `reasons` list accumulated alongside the score. -/
def reasonsOf (political_buy : Bool) (env : FusionEnv) : List Reason :=
  (if political_buy then [Reason.repBought] else [])
  ++ (if sentiment_score > 1/2 then [Reason.sentimentPos sentiment_score] else [])
  ++ (match env.fundamentals with
      | some f => if f.peg < 1 then [Reason.pegGood f.peg] else []
      | none => [])
  ++ (if env.tech = Tech.buy then [Reason.rsiBuy] else [])

/-- The dictionary returned by `generate_fused_signal` on acceptance. -/
structure FusedSignal where
  symbol : String
  action : String
  confidence : ℚ
  quantity : ℤ
  entry_price : ℚ
  stop_loss : ℚ
  reasons : List Reason
  regime : Regime
deriving DecidableEq, Repr

/-- `account_capital = 100000`. -/
def account_capital : ℚ := 100000

/-- `max_risk_per_trade = account_capital * 0.01`. -/
def max_risk_per_trade : ℚ := account_capital * (1/100)

/-- The `entry_price` read from fundamentals
(`fundamentals.get("price", 0)` if present, else 0). -/
def entryPrice (env : FusionEnv) : ℚ :=
  match env.fundamentals with
  | some f => f.price
  | none => 0

/-- `generate_fused_signal` (fusion.py, lines 163-256): sums weighted
contributions of the four signals, vetoes on a technical `sell`, damps by
0.5 in a bear regime, gates by the top-down filter, accepts at
`total_score ≥ 2.5`, and sizes the position by the 1% risk rule with a
2×ATR stop. Returns `none` where the Python returns `None`. -/
def generate_fused_signal (symbol : String) (political_buy : Bool)
    (w : Weights) (env : FusionEnv) : Option FusedSignal :=
  if env.tech = Tech.sell then none
  else
    let score := total_score w political_buy env
    if env.aligned = false then none
    else if score ≥ 5/2 then
      if env.atr ≤ 0 then none
      else
        let entry := entryPrice env
        if entry ≤ 0 then none
        else
          let stop_loss_price := entry - env.atr * 2
          let risk_per_share := entry - stop_loss_price
          if risk_per_share ≤ 0 then none
          else
            let qty : ℤ := Int.floor (max_risk_per_trade / risk_per_share)
            if qty = 0 then none
            else some {
              symbol := symbol
              action := "buy"
              confidence := min (score / 4) 1
              quantity := qty
              entry_price := entry
              stop_loss := stop_loss_price
              reasons := reasonsOf political_buy env
              regime := env.regime }
    else none

/-! ### Market regime detection (`app/analysis/market_regime.py`) -/

/-- `compute_rsi` (market_regime.py, lines 20-37): Wilder-style RSI over
simple deltas.  Returns the neutral value 50 when fewer than `window + 1`
prices are available, and 100 when the average loss is zero. -/
def compute_rsi (prices : List ℚ) (window : ℕ) : ℚ :=
  if prices.length < window + 1 then 50
  else
    let deltas := (prices.zip prices.tail).map (fun p => p.2 - p.1)
    let gains := deltas.map (fun d => if d > 0 then d else 0)
    let losses := deltas.map (fun d => if d < 0 then -d else 0)
    let avg_gain := (gains.take window).sum / (window : ℚ)
    let avg_loss := (losses.take window).sum / (window : ℚ)
    if avg_loss = 0 then 100
    else
      let rs := avg_gain / avg_loss
      100 - 100 / (1 + rs)

/-- `current_price = prices[-1]` (market_regime.py, line 59). -/
def current_price (prices : List ℚ) : ℚ := prices.getLastD 0

/-- `sma_window = min(50, len(prices) // 2)` (market_regime.py,
line 62). -/
def sma_window (n : ℕ) : ℕ := min 50 (n / 2)

/-- `sma = sum(prices[-sma_window:]) / sma_window` (market_regime.py,
line 63). -/
def sma_of (prices : List ℚ) : ℚ :=
  (prices.drop (prices.length - sma_window prices.length)).sum /
    (sma_window prices.length : ℚ)

/-- The pure classification core of `detect_regime_by_symbol`
(market_regime.py, lines 40-83), applied to the list of closing prices
extracted from the feed: fewer than 20 prices gives `neutral`; otherwise
compare the last price with the SMA over the trailing
`min(50, N/2)` window and combine with the 14-period RSI. -/
def detect_regime (prices : List ℚ) : Regime :=
  if prices.length < 20 then Regime.neutral
  else
    if current_price prices > sma_of prices ∧ compute_rsi prices 14 > 50 then Regime.bull
    else if current_price prices < sma_of prices ∧ compute_rsi prices 14 < 40 then Regime.bear
    else Regime.neutral

/-- The pure core of `get_market_regime` (fusion.py, lines 116-129), the
simplified SPY-based variant the fusion engine itself calls: `neutral`
when the feed is missing or shorter than 50 entries, otherwise `bull`
or `bear` by comparing the last of the trailing 50 closes with their
mean (no RSI, no neutral band). -/
def get_market_regime_from (historical : Option (List ℚ)) : Regime :=
  match historical with
  | none => Regime.neutral
  | some closes =>
    if closes.length < 50 then Regime.neutral
    else
      let prices := closes.drop (closes.length - 50)
      let sma := prices.sum / 50
      if prices.getLastD 0 > sma then Regime.bull else Regime.bear

/-! ### Self-learning weight updates (`app/learning/self_learning.py`) -/

/-- The four signal names keyed by the weight store. -/
inductive SignalName
  | political
  | sentiment
  | fundamentals
  | technical
deriving DecidableEq, Repr

/-- One line of `weekly_trades.jsonl` as read by
`analyze_trade_performance`: the realized `pnl` (`trade.get("pnl", 0)`,
default already applied) and the `signals` activity map
(`trade.get("signals", {}).get(name, False)`, defaults applied). -/
structure TradeRec where
  pnl : ℚ
  signals : SignalName → Bool

/-- Look a signal weight up by name (`weights[sig]`). -/
def Weights.get (w : Weights) : SignalName → ℚ
  | SignalName.political => w.political
  | SignalName.sentiment => w.sentiment
  | SignalName.fundamentals => w.fundamentals
  | SignalName.technical => w.technical

/-- `signal_count[signal]`: number of trades whose `signals[signal]`
is true. -/
def signal_count (trades : List TradeRec) (s : SignalName) : ℕ :=
  trades.countP (fun t => t.signals s)

/-- `signal_success[signal]`: number of trades whose `signals[signal]`
is true and whose pnl is positive (`outcome`). -/
def signal_success (trades : List TradeRec) (s : SignalName) : ℕ :=
  trades.countP (fun t => t.signals s && decide (t.pnl > 0))

/-- `success_rate = success / count if count > 0 else 0.0`
(self_learning.py, line 91). -/
def success_rate (trades : List TradeRec) (s : SignalName) : ℚ :=
  if 0 < signal_count trades s then
    (signal_success trades s : ℚ) / (signal_count trades s : ℚ)
  else 0

/-- The per-signal adjustment factor (self_learning.py, lines 93-98):
×1.1 above a 0.6 success rate, ×0.9 below 0.4, ×1.0 otherwise. -/
def adjustment (trades : List TradeRec) (s : SignalName) : ℚ :=
  if success_rate trades s > 3/5 then 11/10
  else if success_rate trades s < 2/5 then 9/10
  else 1

/-- `updated_weights = {sig: weights[sig] * adjustments[sig]}`
(self_learning.py, line 137). -/
def apply_adjustments (trades : List TradeRec) (w : Weights) : Weights :=
  ⟨w.political * adjustment trades SignalName.political,
   w.sentiment * adjustment trades SignalName.sentiment,
   w.fundamentals * adjustment trades SignalName.fundamentals,
   w.technical * adjustment trades SignalName.technical⟩

/-- `max_weight = max(updated_weights.values())` (self_learning.py,
line 141). -/
def max_weight (w : Weights) : ℚ :=
  max (max (max w.political w.sentiment) w.fundamentals) w.technical

/-- `normalized_weights = {k: v / max_weight ...}` (self_learning.py,
line 142). -/
def normalize (w : Weights) : Weights :=
  ⟨w.political / max_weight w, w.sentiment / max_weight w,
   w.fundamentals / max_weight w, w.technical / max_weight w⟩

/-- The pure core of `update_strategy_weights` (self_learning.py,
lines 105-149): with no parsed trades the run is a no-op; otherwise the
current weights are multiplied by the per-signal adjustment factors and
divided by their maximum, and the result is persisted. -/
def update_strategy_weights (trades : List TradeRec) (w : Weights) : Weights :=
  if trades.isEmpty then w
  else normalize (apply_adjustments trades w)

/-! ### Concrete inputs used by the scenario theorems -/

/-- The end-to-end scenario environment: fundamentals present with
PEG 0.8 and price 100, technical label `buy`, bull regime, top-down
aligned, ATR 2. -/
def scenarioEnv : FusionEnv :=
  ⟨some ⟨4/5, 100⟩, Tech.buy, Regime.bull, true, 2⟩

/-- The same scenario with a bear regime, with the top-down verdict and
the ATR left free. -/
def bearEnv (aligned : Bool) (atr : ℚ) : FusionEnv :=
  ⟨some ⟨4/5, 100⟩, Tech.buy, Regime.bear, aligned, atr⟩

/-- The same scenario with a technical `sell` label. -/
def sellEnv : FusionEnv :=
  ⟨some ⟨4/5, 100⟩, Tech.sell, Regime.bull, true, 2⟩

/-- A two-line trade log: a winning trade driven by the political signal
and a losing trade driven by the sentiment signal. -/
def mixedLog : List TradeRec :=
  [⟨1, fun s => match s with | SignalName.political => true | _ => false⟩,
   ⟨-1, fun s => match s with | SignalName.sentiment => true | _ => false⟩]

/-- A one-line trade log: a losing trade with every signal active, so
every signal receives the same ×0.9 adjustment. -/
def allLoseLog : List TradeRec :=
  [⟨-1, fun _ => true⟩]

/-- The scenario with a zero ATR (invalid risk geometry). -/
def zeroAtrEnv : FusionEnv :=
  ⟨some ⟨4/5, 100⟩, Tech.buy, Regime.bull, true, 0⟩

/-- An environment where no optional signal contributes: no political
buy is paired with it, fundamentals are missing and the technical label
is neutral. -/
def bareEnv : FusionEnv :=
  ⟨none, Tech.neutral, Regime.bull, true, 2⟩

/-- Twenty identical closing prices. -/
def flatPrices : List ℚ := List.replicate 20 5

/-! ### Theorems -/

/-- Helper: the bull scenario evaluates to a concrete accepted signal
(score 4.0, confidence 1.0, 250 shares, stop at 96). -/
theorem scenario_eval :
    generate_fused_signal "AAPL" true DEFAULT_WEIGHTS scenarioEnv =
      some ⟨"AAPL", "buy", 1, 250, 100, 96,
        [Reason.repBought, Reason.sentimentPos (7/10), Reason.pegGood (4/5), Reason.rsiBuy],
        Regime.bull⟩ := by
  simp [generate_fused_signal, total_score, preScore, fund_contrib, sentiment_score,
    DEFAULT_WEIGHTS, scenarioEnv, entryPrice, max_risk_per_trade, account_capital, reasonsOf]
  norm_num [Int.floor_eq_iff]

/-- C2: for every symbol, weight map and combination of the other
signals, a technical `sell` label makes `generate_fused_signal` return
no trade, whatever the other contributions would have scored. -/
theorem technical_sell_veto (symbol : String) (political_buy : Bool)
    (w : Weights) (env : FusionEnv) (h : env.tech = Tech.sell) :
    generate_fused_signal symbol political_buy w env = none := by
  simp [generate_fused_signal, h]

/-- Witness for C2: the full-strength scenario with the technical label
flipped to `sell` is rejected. -/
theorem technical_sell_veto_witness :
    sellEnv.tech = Tech.sell ∧
      generate_fused_signal "AAPL" true DEFAULT_WEIGHTS sellEnv = none :=
  ⟨rfl, technical_sell_veto "AAPL" true DEFAULT_WEIGHTS sellEnv rfl⟩

/-- C3: a bear regime halves the summed score before the 2.5 threshold
is applied; in particular the scenario that scores 4.0 in a bull regime
scores 2.0 in a bear regime and is rejected (for every top-down verdict
and every ATR). -/
theorem bear_regime_damping :
    (∀ (w : Weights) (political_buy : Bool) (env : FusionEnv),
      env.regime = Regime.bear →
        total_score w political_buy env = preScore w political_buy env * (1/2)) ∧
    (∀ (aligned : Bool) (atr : ℚ),
      total_score DEFAULT_WEIGHTS true (bearEnv aligned atr) = 2 ∧
      generate_fused_signal "AAPL" true DEFAULT_WEIGHTS (bearEnv aligned atr) = none) := by
  constructor
  · intro w pb env h
    simp [total_score, h]
  · intro aligned atr
    constructor
    · simp [total_score, preScore, fund_contrib, sentiment_score, DEFAULT_WEIGHTS, bearEnv] <;>
        norm_num
    · cases aligned <;>
        simp [generate_fused_signal, total_score, preScore, fund_contrib,
          sentiment_score, DEFAULT_WEIGHTS, bearEnv] <;>
        norm_num

/-- Witness for C3: the bear-regime hypothesis discharged on the
concrete bear scenario. -/
theorem bear_regime_damping_witness :
    (bearEnv true 2).regime = Regime.bear ∧
      total_score DEFAULT_WEIGHTS true (bearEnv true 2) =
        preScore DEFAULT_WEIGHTS true (bearEnv true 2) * (1/2) :=
  ⟨rfl, bear_regime_damping.1 DEFAULT_WEIGHTS true (bearEnv true 2) rfl⟩

/-- C1: the end-to-end bull scenario (political buy, sentiment 0.7,
PEG 0.8, technical `buy`, bull regime, unit weights) scores 4.0 and is
accepted with confidence 1.0; in general, with the other gates
satisfied, the candidate is accepted iff `total_score ≥ 2.5` (the
boundary included), and every emitted signal carries
`confidence = min(total_score / 4.0, 1.0)`. -/
theorem fusion_score_threshold_confidence :
    (total_score DEFAULT_WEIGHTS true scenarioEnv = 4) ∧
    (∃ sig : FusedSignal,
      generate_fused_signal "AAPL" true DEFAULT_WEIGHTS scenarioEnv = some sig ∧
      sig.action = "buy" ∧ sig.confidence = 1) ∧
    (∀ (symbol : String) (political_buy : Bool) (w : Weights) (env : FusionEnv),
      env.tech ≠ Tech.sell → env.aligned = true → 0 < env.atr → 0 < entryPrice env →
      Int.floor (max_risk_per_trade / (env.atr * 2)) ≠ 0 →
      ((generate_fused_signal symbol political_buy w env).isSome = true ↔
        5/2 ≤ total_score w political_buy env)) ∧
    (∀ (symbol : String) (political_buy : Bool) (w : Weights) (env : FusionEnv)
      (sig : FusedSignal),
      generate_fused_signal symbol political_buy w env = some sig →
      sig.confidence = min (total_score w political_buy env / 4) 1) := by
  refine ⟨?_, ?_, ?_, ?_⟩
  · simp [total_score, preScore, fund_contrib, sentiment_score, DEFAULT_WEIGHTS, scenarioEnv]
    norm_num
  · exact ⟨_, scenario_eval, rfl, rfl⟩
  · intro symbol pb w env htech hal hatr hentry hqty
    have hrps : entryPrice env - (entryPrice env - env.atr * 2) = env.atr * 2 := by ring
    simp only [generate_fused_signal, hal, if_neg htech, Bool.true_eq_false, if_false, hrps]
    split_ifs
    all_goals simp_all
    all_goals linarith
  · intro symbol pb w env sig h
    simp only [generate_fused_signal] at h
    split_ifs at h <;> try exact Option.noConfusion h
    obtain rfl := Option.some.inj h
    rfl

/-- Witness for C1: the gate hypotheses discharged on the concrete bull
scenario, where the acceptance decision agrees with the threshold
test. -/
theorem fusion_score_threshold_confidence_witness :
    scenarioEnv.tech ≠ Tech.sell ∧ scenarioEnv.aligned = true ∧
    0 < scenarioEnv.atr ∧ 0 < entryPrice scenarioEnv ∧
    Int.floor (max_risk_per_trade / (scenarioEnv.atr * 2)) ≠ 0 ∧
    ((generate_fused_signal "AAPL" true DEFAULT_WEIGHTS scenarioEnv).isSome = true ↔
      5/2 ≤ total_score DEFAULT_WEIGHTS true scenarioEnv) :=
  ⟨by simp [scenarioEnv], rfl, by norm_num [scenarioEnv],
   by norm_num [entryPrice, scenarioEnv],
   by norm_num [max_risk_per_trade, account_capital, scenarioEnv, Int.floor_eq_iff],
   fusion_score_threshold_confidence.2.2.1 "AAPL" true DEFAULT_WEIGHTS scenarioEnv
     (by simp [scenarioEnv]) rfl (by norm_num [scenarioEnv])
     (by norm_num [entryPrice, scenarioEnv])
     (by norm_num [max_risk_per_trade, account_capital, scenarioEnv, Int.floor_eq_iff])⟩

/-- C4: every emitted signal is sized with `stop_loss = entry − 2×ATR`
and `qty = ⌊equity × 0.01 / risk_per_share⌋` where
`risk_per_share = entry − stop_loss`; the trade is rejected outright when
ATR ≤ 0, the entry price ≤ 0, the risk per share ≤ 0, or the resulting
quantity is 0; concretely ATR=2, entry=100, equity=100000 give
stop 96, risk 4 per share, 250 shares. -/
theorem risk_sizer_rules :
    (∀ (symbol : String) (political_buy : Bool) (w : Weights) (env : FusionEnv)
      (sig : FusedSignal),
      generate_fused_signal symbol political_buy w env = some sig →
      sig.entry_price = entryPrice env ∧
      sig.stop_loss = entryPrice env - env.atr * 2 ∧
      sig.quantity = Int.floor (max_risk_per_trade / (sig.entry_price - sig.stop_loss))) ∧
    (∀ (symbol : String) (political_buy : Bool) (w : Weights) (env : FusionEnv),
      (env.atr ≤ 0 ∨ entryPrice env ≤ 0 ∨
        entryPrice env - (entryPrice env - env.atr * 2) ≤ 0 ∨
        Int.floor (max_risk_per_trade / (env.atr * 2)) = (0:ℤ)) →
      generate_fused_signal symbol political_buy w env = none) ∧
    (∃ sig : FusedSignal,
      generate_fused_signal "AAPL" true DEFAULT_WEIGHTS scenarioEnv = some sig ∧
      sig.stop_loss = 96 ∧ sig.entry_price - sig.stop_loss = 4 ∧ sig.quantity = 250) := by
  refine ⟨?_, ?_, ?_⟩
  · intro symbol pb w env sig h
    simp only [generate_fused_signal] at h
    split_ifs at h <;> try exact Option.noConfusion h
    obtain rfl := Option.some.inj h
    exact ⟨rfl, rfl, rfl⟩
  · intro symbol pb w env hbad
    have hrps : entryPrice env - (entryPrice env - env.atr * 2) = env.atr * 2 := by ring
    simp only [generate_fused_signal, hrps]
    split_ifs with h1 h2 h3 h4 h5 h6 h7
    all_goals try rfl
    all_goals exfalso
    · rcases hbad with hb | hb | hb | hb
      · exact h4 hb
      · exact h5 hb
      · rw [hrps] at hb; linarith
      · exact h7 hb
  · exact ⟨_, scenario_eval, rfl, by norm_num, rfl⟩

/-- Witness for C4: the sizing formulas hold of the concrete accepted
scenario signal, and a zero ATR is rejected. -/
theorem risk_sizer_rules_witness :
    (∃ sig : FusedSignal,
      generate_fused_signal "AAPL" true DEFAULT_WEIGHTS scenarioEnv = some sig ∧
      sig.entry_price = entryPrice scenarioEnv ∧
      sig.stop_loss = entryPrice scenarioEnv - scenarioEnv.atr * 2 ∧
      sig.quantity = Int.floor (max_risk_per_trade / (sig.entry_price - sig.stop_loss))) ∧
    generate_fused_signal "AAPL" true DEFAULT_WEIGHTS zeroAtrEnv = none :=
  ⟨⟨_, scenario_eval,
    risk_sizer_rules.1 "AAPL" true DEFAULT_WEIGHTS scenarioEnv _ scenario_eval⟩,
   risk_sizer_rules.2.1 "AAPL" true DEFAULT_WEIGHTS zeroAtrEnv (Or.inl le_rfl)⟩

/-- C5: for every price series the regime detector returns `neutral` on
fewer than 20 prices, and otherwise classifies `bull` iff the last price
is above the SMA over the trailing `min(50, N/2)` window with RSI > 50,
`bear` iff it is below that SMA with RSI < 40, and `neutral` exactly
otherwise. -/
theorem regime_detector_classification (prices : List ℚ) :
    (prices.length < 20 → detect_regime prices = Regime.neutral) ∧
    (20 ≤ prices.length →
      (detect_regime prices = Regime.bull ↔
        current_price prices > sma_of prices ∧ compute_rsi prices 14 > 50) ∧
      (detect_regime prices = Regime.bear ↔
        current_price prices < sma_of prices ∧ compute_rsi prices 14 < 40) ∧
      (detect_regime prices = Regime.neutral ↔
        ¬(current_price prices > sma_of prices ∧ compute_rsi prices 14 > 50) ∧
        ¬(current_price prices < sma_of prices ∧ compute_rsi prices 14 < 40))) := by
  constructor
  · intro h
    simp [detect_regime, h]
  · intro h
    have hnot : ¬ prices.length < 20 := not_lt.mpr h
    unfold detect_regime
    rw [if_neg hnot]
    split_ifs with h1 h2
    · exact ⟨iff_of_true rfl h1,
        iff_of_false (by simp) (fun hc => absurd hc.1 (lt_asymm h1.1)),
        iff_of_false (by simp) (fun hc => hc.1 h1)⟩
    · exact ⟨iff_of_false (by simp) h1, iff_of_true rfl h2,
        iff_of_false (by simp) (fun hc => hc.2 h2)⟩
    · exact ⟨iff_of_false (by simp) h1, iff_of_false (by simp) h2,
        iff_of_true rfl ⟨h1, h2⟩⟩

/-- Witness for C5: twenty flat prices satisfy the length hypothesis and
land in the `neutral` clause of the classification. -/
theorem regime_detector_classification_witness :
    20 ≤ flatPrices.length ∧
    (detect_regime flatPrices = Regime.neutral ↔
      ¬(current_price flatPrices > sma_of flatPrices ∧ compute_rsi flatPrices 14 > 50) ∧
      ¬(current_price flatPrices < sma_of flatPrices ∧ compute_rsi flatPrices 14 < 40)) :=
  ⟨by simp [flatPrices],
   ((regime_detector_classification flatPrices).2 (by simp [flatPrices])).2.2⟩

/-- C9: with every weight positive and the regime held fixed, the fused
total score is monotonically non-decreasing in the set of contributing
signals. -/
theorem total_score_monotone (w : Weights) (p₁ p₂ : Bool) (e₁ e₂ : FusionEnv)
    (hw₁ : 0 < w.political) (hw₂ : 0 < w.sentiment) (hw₃ : 0 < w.fundamentals)
    (hw₄ : 0 < w.technical)
    (hreg : e₁.regime = e₂.regime)
    (hp : p₁ = true → p₂ = true)
    (hf : fund_contrib e₁ = true → fund_contrib e₂ = true)
    (ht : e₁.tech = Tech.buy → e₂.tech = Tech.buy) :
    total_score w p₁ e₁ ≤ total_score w p₂ e₂ := by
  have hbase : preScore w p₁ e₁ ≤ preScore w p₂ e₂ := by
    unfold preScore
    apply add_le_add (add_le_add (add_le_add ?_ le_rfl) ?_) ?_
    · split_ifs with a b
      · exact le_rfl
      · exact absurd (hp a) b
      · linarith
      · exact le_rfl
    · split_ifs with a b
      · exact le_rfl
      · exact absurd (hf a) b
      · linarith
      · exact le_rfl
    · split_ifs with a b
      · exact le_rfl
      · exact absurd (ht a) b
      · linarith
      · exact le_rfl
  unfold total_score
  rw [hreg]
  split_ifs with hb
  · linarith
  · exact hbase

/-- Witness for C9: the bare environment contributes a subset of the
bull scenario's signals, and its score is indeed no larger. -/
theorem total_score_monotone_witness :
    ((0:ℚ) < DEFAULT_WEIGHTS.political ∧ (0:ℚ) < DEFAULT_WEIGHTS.sentiment ∧
     (0:ℚ) < DEFAULT_WEIGHTS.fundamentals ∧ (0:ℚ) < DEFAULT_WEIGHTS.technical) ∧
    bareEnv.regime = scenarioEnv.regime ∧
    total_score DEFAULT_WEIGHTS false bareEnv ≤ total_score DEFAULT_WEIGHTS true scenarioEnv :=
  ⟨⟨one_pos, one_pos, one_pos, one_pos⟩, rfl,
   total_score_monotone DEFAULT_WEIGHTS false true bareEnv scenarioEnv
     one_pos one_pos one_pos one_pos rfl
     (fun _ => rfl)
     (fun _ => by norm_num [fund_contrib, scenarioEnv])
     (fun _ => rfl)⟩

/-- C10: the sentiment score is the hard-coded constant 0.7, so the
sentiment signal contributes `1.0 × weights["sentiment"]` to every
evaluation, and every emitted signal lists a sentiment reason. -/
theorem sentiment_always_contributes :
    sentiment_score = 7/10 ∧
    (∀ (w : Weights) (political_buy : Bool) (env : FusionEnv),
      preScore w political_buy env =
        preScore ⟨w.political, 0, w.fundamentals, w.technical⟩ political_buy env
          + 1 * w.sentiment) ∧
    (∀ (symbol : String) (political_buy : Bool) (w : Weights) (env : FusionEnv)
      (sig : FusedSignal),
      generate_fused_signal symbol political_buy w env = some sig →
      Reason.sentimentPos sentiment_score ∈ sig.reasons) := by
  refine ⟨rfl, ?_, ?_⟩
  · intro w pb env
    simp only [preScore]
    norm_num [sentiment_score]
    ring
  · intro symbol pb w env sig h
    have hmem : Reason.sentimentPos sentiment_score ∈ reasonsOf pb env := by
      simp [reasonsOf, sentiment_score]
      norm_num
    simp only [generate_fused_signal] at h
    split_ifs at h <;> try exact Option.noConfusion h
    obtain rfl := Option.some.inj h
    exact hmem

/-- Witness for C10: the concrete accepted scenario signal carries the
sentiment reason. -/
theorem sentiment_always_contributes_witness :
    ∃ sig : FusedSignal,
      generate_fused_signal "AAPL" true DEFAULT_WEIGHTS scenarioEnv = some sig ∧
      Reason.sentimentPos sentiment_score ∈ sig.reasons :=
  ⟨_, scenario_eval,
   sentiment_always_contributes.2.2 "AAPL" true DEFAULT_WEIGHTS scenarioEnv _ scenario_eval⟩

/-- C6: for every trade log and signal name, the learner computes the
win rate as the fraction of trades with that signal active whose pnl is
positive, and multiplies the signal's current weight by 1.1 above 0.6,
by 0.9 below 0.4, and leaves it unchanged otherwise, before the
normalization step. -/
theorem weight_update_rule (trades : List TradeRec) (w : Weights) (s : SignalName)
    (hne : trades ≠ []) :
    success_rate trades s = (signal_success trades s : ℚ) / (signal_count trades s : ℚ) ∧
    (apply_adjustments trades w).get s =
      (if success_rate trades s > 3/5 then w.get s * (11/10)
       else if success_rate trades s < 2/5 then w.get s * (9/10)
       else w.get s) := by
  constructor
  · unfold success_rate
    split_ifs with h
    · rfl
    · have h0 : signal_count trades s = 0 := by omega
      have hle : signal_success trades s ≤ signal_count trades s := by
        unfold signal_success signal_count
        apply List.countP_mono_left
        intro t _ htt
        exact (Bool.and_eq_true_iff.mp htt).1
      have h1 : signal_success trades s = 0 := by omega
      simp [h0, h1]
  · cases s <;>
      simp [apply_adjustments, Weights.get, adjustment, mul_ite, mul_one]

/-- Witness for C6: the political signal of the two-line mixed log has
win rate 1/1 and its weight is boosted by 1.1. -/
theorem weight_update_rule_witness :
    mixedLog ≠ [] ∧
    (success_rate mixedLog SignalName.political =
      (signal_success mixedLog SignalName.political : ℚ) /
        (signal_count mixedLog SignalName.political : ℚ) ∧
     (apply_adjustments mixedLog DEFAULT_WEIGHTS).get SignalName.political =
      (if success_rate mixedLog SignalName.political > 3/5 then
        DEFAULT_WEIGHTS.get SignalName.political * (11/10)
       else if success_rate mixedLog SignalName.political < 2/5 then
        DEFAULT_WEIGHTS.get SignalName.political * (9/10)
       else DEFAULT_WEIGHTS.get SignalName.political)) :=
  ⟨by simp [mixedLog],
   weight_update_rule mixedLog DEFAULT_WEIGHTS SignalName.political (by simp [mixedLog])⟩

/-- Counterexample for C7: four consecutive learner runs over the mixed
log, starting from the default weights, drive the sentiment weight to
(9/11)⁴ ≈ 0.448, below the claimed lower bound 0.5. -/
theorem learner_weight_below_half :
    ¬ (1/2 ≤ (update_strategy_weights mixedLog (update_strategy_weights mixedLog
        (update_strategy_weights mixedLog
          (update_strategy_weights mixedLog DEFAULT_WEIGHTS)))).sentiment) := by
  norm_num [update_strategy_weights, normalize, apply_adjustments, adjustment, success_rate,
    signal_count, signal_success, max_weight, mixedLog, DEFAULT_WEIGHTS,
    List.countP_cons, List.countP_nil, max_def]

/-- Helper: every adjustment factor is one of 1.1, 0.9 and 1.0, hence
positive. -/
theorem adjustment_pos (trades : List TradeRec) (s : SignalName) :
    0 < adjustment trades s := by
  unfold adjustment
  split_ifs <;> norm_num

/-- C7 (amended): a weight map produced by the learner from a nonempty
trade log and an all-positive weight map has all four values in (0, 1],
with the maximum pinned at exactly 1 by the divide-by-max
normalization; the claimed lower bound 0.5 does not hold in general. -/
theorem learner_output_bounds (trades : List TradeRec) (w : Weights)
    (hne : trades ≠ []) (hp : 0 < w.political) (hs : 0 < w.sentiment)
    (hf : 0 < w.fundamentals) (ht : 0 < w.technical) :
    (∀ s : SignalName, 0 < (update_strategy_weights trades w).get s ∧
        (update_strategy_weights trades w).get s ≤ 1) ∧
    max_weight (update_strategy_weights trades w) = 1 := by
  obtain ⟨t, ts, rfl⟩ := List.exists_cons_of_ne_nil hne
  have hupd : update_strategy_weights (t :: ts) w =
      normalize (apply_adjustments (t :: ts) w) := by
    simp [update_strategy_weights]
  set A := apply_adjustments (t :: ts) w with hA
  have hap : 0 < A.political := mul_pos hp (adjustment_pos _ _)
  have has : 0 < A.sentiment := mul_pos hs (adjustment_pos _ _)
  have haf : 0 < A.fundamentals := mul_pos hf (adjustment_pos _ _)
  have hat : 0 < A.technical := mul_pos ht (adjustment_pos _ _)
  have hple : A.political ≤ max_weight A :=
    (le_max_left _ _).trans ((le_max_left _ _).trans (le_max_left _ _))
  have hsle : A.sentiment ≤ max_weight A :=
    (le_max_right _ _).trans ((le_max_left _ _).trans (le_max_left _ _))
  have hfle : A.fundamentals ≤ max_weight A :=
    (le_max_right _ _).trans (le_max_left _ _)
  have htle : A.technical ≤ max_weight A := le_max_right _ _
  have hM : 0 < max_weight A := lt_of_lt_of_le hap hple
  constructor
  · intro s
    rw [hupd]
    cases s <;>
      exact ⟨div_pos (by assumption) hM, (div_le_one hM).mpr (by assumption)⟩
  · rw [hupd]
    show max (max (max (A.political / max_weight A) (A.sentiment / max_weight A))
        (A.fundamentals / max_weight A)) (A.technical / max_weight A) = 1
    rw [max_div_div_right hM.le, max_div_div_right hM.le, max_div_div_right hM.le]
    exact div_self (ne_of_gt hM)

/-- Witness for C7 (amended): the mixed log and default weights satisfy
the hypotheses, and the produced map lies in (0, 1] with maximum 1. -/
theorem learner_output_bounds_witness :
    mixedLog ≠ [] ∧
    ((∀ s : SignalName, 0 < (update_strategy_weights mixedLog DEFAULT_WEIGHTS).get s ∧
        (update_strategy_weights mixedLog DEFAULT_WEIGHTS).get s ≤ 1) ∧
      max_weight (update_strategy_weights mixedLog DEFAULT_WEIGHTS) = 1) :=
  ⟨by simp [mixedLog],
   learner_output_bounds mixedLog DEFAULT_WEIGHTS (by simp [mixedLog])
     one_pos one_pos one_pos one_pos⟩

/-- Counterexample for C8: running the learner a second time over the
same unchanged mixed log changes the persisted weights (the sentiment
weight drops from 9/11 to 81/121). -/
theorem learner_second_run_differs :
    update_strategy_weights mixedLog (update_strategy_weights mixedLog DEFAULT_WEIGHTS) ≠
      update_strategy_weights mixedLog DEFAULT_WEIGHTS := by
  norm_num [update_strategy_weights, normalize, apply_adjustments, adjustment, success_rate,
    signal_count, signal_success, max_weight, mixedLog, DEFAULT_WEIGHTS,
    List.countP_cons, List.countP_nil, max_def, Weights.mk.injEq]

/-- C8 (amended): both runs compute the same adjustment factors, and
whenever all four of them coincide (the empty log included) and the
current map's maximum weight is positive, a second run over the same
log reproduces the first run's map; in general the second run
re-applies the multiplicative adjustments before normalizing, so the
maps differ. -/
theorem learner_idempotent_uniform (trades : List TradeRec) (w : Weights)
    (hadj : ∀ s t : SignalName, adjustment trades s = adjustment trades t)
    (hmax : 0 < max_weight w) :
    update_strategy_weights trades (update_strategy_weights trades w) =
      update_strategy_weights trades w := by
  by_cases hemp : trades.isEmpty
  · simp [update_strategy_weights, hemp]
  · have hcpos : 0 < adjustment trades SignalName.political := adjustment_pos trades _
    set c := adjustment trades SignalName.political with hc
    have happ : ∀ v : Weights, apply_adjustments trades v =
        ⟨v.political * c, v.sentiment * c, v.fundamentals * c, v.technical * c⟩ := by
      intro v
      unfold apply_adjustments
      rw [hadj SignalName.sentiment SignalName.political,
          hadj SignalName.fundamentals SignalName.political,
          hadj SignalName.technical SignalName.political]
    have hstep : ∀ v : Weights, 0 < max_weight v →
        update_strategy_weights trades v =
          ⟨v.political / max_weight v, v.sentiment / max_weight v,
           v.fundamentals / max_weight v, v.technical / max_weight v⟩ := by
      intro v hv
      unfold update_strategy_weights
      rw [if_neg hemp, happ v]
      have hMmul : max_weight ⟨v.political * c, v.sentiment * c,
          v.fundamentals * c, v.technical * c⟩ = max_weight v * c := by
        show max (max (max (v.political * c) (v.sentiment * c)) (v.fundamentals * c))
            (v.technical * c) = max_weight v * c
        rw [← max_mul_of_nonneg _ _ hcpos.le, ← max_mul_of_nonneg _ _ hcpos.le,
            ← max_mul_of_nonneg _ _ hcpos.le]
        rfl
      unfold normalize
      rw [hMmul]
      simp only
      rw [mul_div_mul_right _ _ (ne_of_gt hcpos), mul_div_mul_right _ _ (ne_of_gt hcpos),
          mul_div_mul_right _ _ (ne_of_gt hcpos), mul_div_mul_right _ _ (ne_of_gt hcpos)]
    have h1 := hstep w hmax
    have hmw1 : max_weight (update_strategy_weights trades w) = 1 := by
      rw [h1]
      show max (max (max (w.political / max_weight w) (w.sentiment / max_weight w))
          (w.fundamentals / max_weight w)) (w.technical / max_weight w) = 1
      rw [max_div_div_right hmax.le, max_div_div_right hmax.le, max_div_div_right hmax.le]
      exact div_self (ne_of_gt hmax)
    have h2 := hstep (update_strategy_weights trades w) (by rw [hmw1]; norm_num)
    rw [h2, hmw1]
    simp

/-- Witness for C8 (amended): the all-losing one-line log assigns every
signal the same ×0.9 adjustment, and a second run over it is indeed a
no-op. -/
theorem learner_idempotent_uniform_witness :
    update_strategy_weights allLoseLog (update_strategy_weights allLoseLog DEFAULT_WEIGHTS) =
      update_strategy_weights allLoseLog DEFAULT_WEIGHTS :=
  learner_idempotent_uniform allLoseLog DEFAULT_WEIGHTS
    (by
      intro s t
      cases s <;> cases t <;>
        norm_num [adjustment, success_rate, signal_count, signal_success, allLoseLog,
          List.countP_cons, List.countP_nil])
    (by norm_num [max_weight, DEFAULT_WEIGHTS])

end DayTrading
